import Mathlib

set_option maxHeartbeats 1000000

/-!
Shallow embedding of the dependency resolver and lockfile engine of the
mod-manager repository: `getItemData`, the `LockfileGraph` class
(`validate`, `validateAll`, `add`, `remove`, `getDependants`,
`isNodeDangling`, `cleanup`) and `lockfileDifference`, together with the
external collaborators (the `semver` library, the ficsit.app catalog and
the mod cache) abstracted as an environment record of opaque functions.
JavaScript objects used as string maps are embedded as association lists
in key-insertion order; thrown exceptions become an `Except` whose error
carries the graph state at throw time (the JS graph is mutable, so the
mutations performed before a throw persist).
-/

/-- Type `ItemVersionList` (source): a JS object mapping item id to a
version or constraint string, embedded as an association list. -/
abbrev ItemVersionList := List (String × String)

/-- Record `LockfileGraphNode` (source). `isInManifest` is an optional boolean
in TS; an absent field reads as `false`. -/
structure LockfileGraphNode where
  id : String
  version : String
  dependencies : ItemVersionList
  isInManifest : Bool := false
deriving DecidableEq

/-- Record `LockfileItemData` (source). -/
structure LockfileItemData where
  version : String
  dependencies : ItemVersionList
deriving DecidableEq

/-- Type `Lockfile` (source): id → item data. -/
abbrev Lockfile := List (String × LockfileItemData)

/-- Record `LockfileDiff` (source). -/
structure LockfileDiff where
  install : ItemVersionList
  uninstall : List String
deriving DecidableEq

/-- The error classes of `errors.ts` thrown or forwarded by the resolver.
`otherFailure` stands for any other exception bubbling up from the
catalog or the mod cache (network or parse failures). -/
inductive ResolverError where
  | modNotFound (msg : String)
  | invalidLockfileOperation (msg : String)
  | unsolvableDependency (msg : String)
  | dependencyManifestMismatch (msg : String)
  | otherFailure (msg : String)
deriving DecidableEq

/-- Record `FicsitAppSMLVersion` (ficsitApp source): the fields `getItemData`
reads. `satisfactory_version` is a number in the API. -/
structure FicsitAppSMLVersion where
  version : String
  satisfactory_version : Nat
deriving DecidableEq

/-- The mod metadata record returned by `getCachedMod` (mod cache), the
fields `getItemData` reads. `dependencies` and `sml_version` are
optional fields. -/
structure ModMeta where
  mod_id : String
  version : String
  dependencies : Option ItemVersionList
  sml_version : Option String
deriving DecidableEq

/-- The external collaborators of the resolver, as opaque functions: the
`semver` library (`satisfies`, `compare`, and the composite
`valid(coerce(s))` as `coerceValid`), the catalog (`getSMLVersionInfo`,
`findAllVersionsMatchingAll`) and the mod cache (`getCachedMod`, which
may fail with any error). -/
structure ResolverEnv where
  satisfies : String → String → Bool
  compare : String → String → Int
  coerceValid : String → String
  getSMLVersionInfo : String → Option FicsitAppSMLVersion
  getCachedMod : String → String → Except ResolverError ModMeta
  findAllVersionsMatchingAll : String → List String → List String

/-- JS object key assignment `m[k] = v`: overwrite in place if the key
exists, append otherwise. -/
def setKey : ItemVersionList → String → String → ItemVersionList
  | [], k, v => [(k, v)]
  | (k', v') :: rest, k, v =>
    if k' == k then (k, v) :: rest else (k', v') :: setKey rest k v

/-- Function `getItemData(id, version)` (source lines 40–62). For `SML` the
dependency map is synthesized from the loader release's game version;
for `SatisfactoryGame` the call is illegal; otherwise the cached mod
metadata is adapted, defaulting a falsy `dependencies` field to the
empty map and merging an `SML` entry when `sml_version` is truthy
(in JS the empty string is falsy). -/
def getItemData (env : ResolverEnv) (id version : String) :
    Except ResolverError LockfileGraphNode :=
  if id == "SML" then
    match env.getSMLVersionInfo version with
    | none => .error (.modNotFound ("SML@" ++ version ++ " not found"))
    | some smlVersionInfo =>
      .ok { id := id, version := version,
            dependencies :=
              [("SatisfactoryGame",
                ">=" ++ env.coerceValid (toString smlVersionInfo.satisfactory_version))],
            isInManifest := false }
  else if id == "SatisfactoryGame" then
    .error (.invalidLockfileOperation "SMLauncher cannot modify Satisfactory Game version. This should never happen, unless Satisfactory was not temporarily added to the lockfile as a manifest entry")
  else
    match env.getCachedMod id version with
    | .error e => .error e
    | .ok modData =>
      let deps0 := modData.dependencies.getD []
      let deps1 :=
        match modData.sml_version with
        | some smlv =>
          if smlv == "" then deps0
          else setKey deps0 "SML" (">=" ++ env.coerceValid smlv)
        | none => deps0
      .ok { id := modData.mod_id, version := modData.version,
            dependencies := deps1, isInManifest := false }

/-- The resolution graph: the `nodes` array of `LockfileGraph`. -/
abbrev LockfileGraph := List LockfileGraphNode

/-- Method `LockfileGraph.getDependants(node)` (source): all nodes whose
dependency map contains `node.id` as a key. -/
def LockfileGraph.getDependants (g : LockfileGraph) (node : LockfileGraphNode) :
    LockfileGraph :=
  g.filter (fun gn => (gn.dependencies.lookup node.id).isSome)

/-- Method `LockfileGraph.remove(node)` (source). Modelled from the spec:
`removeArrayElement` (utils, not in the sources) removes the element by
identity and fails silently when absent; under the unique-id invariant
this is removal of the first occurrence of the node value. -/
def LockfileGraph.remove (g : LockfileGraph) (node : LockfileGraphNode) :
    LockfileGraph :=
  g.erase node

/-- Method `LockfileGraph.add(node)` (source lines 156–172): a no-op when a node
with the same id already exists, otherwise push. The `try`/`catch` around
the push can never fire because the recursive `validate` inside it is
commented out and `push` does not throw, so the body never produces an
error. -/
def LockfileGraph.add (g : LockfileGraph) (node : LockfileGraphNode) :
    Except ResolverError LockfileGraph :=
  if g.any (fun gn => gn.id == node.id) then .ok g
  else .ok (g ++ [node])

/-- Method `LockfileGraph.isNodeDangling(node)` (source): no dependants and not
in the manifest. -/
def LockfileGraph.isNodeDangling (g : LockfileGraph) (node : LockfileGraphNode) :
    Bool :=
  ((LockfileGraph.getDependants g node).length == 0) && !node.isInManifest

/-- Insertion of a value into a list sorted ascending with respect to a
boolean comparator. -/
def insertSorted (le : String → String → Bool) (v : String) :
    List String → List String
  | [] => [v]
  | w :: ws => if le v w then v :: w :: ws else w :: insertSorted le v ws

/-- Sort ascending with respect to a boolean comparator, as
`Array.prototype.sort` does with the comparator `compare`. -/
def sortAsc (le : String → String → Bool) (l : List String) : List String :=
  l.foldr (insertSorted le) []

/-- Constraint collection (source lines 92–94): the constraints on
`depId` declared by the nodes currently in the graph. -/
def collectConstraints (g : LockfileGraph) (depId : String) : List String :=
  (g.filter (fun gn => (gn.dependencies.lookup depId).isSome)).map
    (fun gn => (gn.dependencies.lookup depId).getD "")

/-- Candidate enumeration (source lines 96–98): catalog versions of
`depId` matching all collected constraints, sorted ascending by semver
`compare`. -/
def candidateVersions (env : ResolverEnv) (g : LockfileGraph) (depId : String) :
    List String :=
  sortAsc (fun a b => decide (env.compare a b ≤ 0))
    (env.findAllVersionsMatchingAll depId (collectConstraints g depId))

/-- The candidate `while` loop (source lines 100–115), applied to the
candidate list already reversed (the loop pops from the end of the
ascending-sorted array, i.e. tries newest first). A popped falsy version
(the empty string) breaks the loop. `getItemData` is called outside the
`try`, so its failure propagates; only a failure of `add` is caught as
rejection of the candidate. Returns the graph together with the `found`
flag, or the propagated error with the graph at throw time. -/
def tryCandidates (env : ResolverEnv) (depId : String) :
    LockfileGraph → List String →
      Except (ResolverError × LockfileGraph) (LockfileGraph × Bool)
  | g, [] => .ok (g, false)
  | g, version :: rest =>
    if version == "" then .ok (g, false)
    else
      match getItemData env depId version with
      | .error e => .error (e, g)
      | .ok itemData =>
        match LockfileGraph.add g itemData with
        | .ok g2 => .ok (g2, true)
        | .error _ => tryCandidates env depId (LockfileGraph.remove g itemData) rest

/-- The unresolved-dependency branch of `validate` (source lines 92–121),
entered with the incompatible prior node (if any) already removed from
`g`: enumerate candidates, run the candidate loop, and on failure re-add
the prior node before throwing `UnsolvableDependency`. -/
def resolveDependency (env : ResolverEnv) (n : LockfileGraphNode)
    (g : LockfileGraph) (prior : Option LockfileGraphNode) (depId : String) :
    Except (ResolverError × LockfileGraph) LockfileGraph :=
  match tryCandidates env depId g (candidateVersions env g depId).reverse with
  | .error eg => .error eg
  | .ok (g2, true) => .ok g2
  | .ok (g2, false) =>
    match prior with
    | some dependencyNode =>
      match LockfileGraph.add g2 dependencyNode with
      | .ok g3 =>
        .error (.unsolvableDependency
          ("No version found for dependency " ++ depId ++ " of " ++ n.id), g3)
      | .error e => .error (e, g2)
    | none =>
      .error (.unsolvableDependency
        ("No version found for dependency " ++ depId ++ " of " ++ n.id), g2)

/-- One iteration of the dependency loop of `validate` (source lines
79–125) for the dependency `(depId, constraint)` of `n`. -/
def validateDep (env : ResolverEnv) (n : LockfileGraphNode) (g : LockfileGraph)
    (depId constraint : String) :
    Except (ResolverError × LockfileGraph) LockfileGraph :=
  match g.find? (fun gn => gn.id == depId) with
  | some dependencyNode =>
    if env.satisfies dependencyNode.version constraint then .ok g
    else if dependencyNode.isInManifest then
      .error (.dependencyManifestMismatch
        ("Dependency " ++ depId ++ "@" ++ dependencyNode.version
          ++ " is NOT GOOD for " ++ n.id ++ "@" ++ n.version
          ++ " (requires " ++ constraint ++ "), and it is in the manifest"), g)
    else
      resolveDependency env n (LockfileGraph.remove g dependencyNode)
        (some dependencyNode) depId
  | none => resolveDependency env n g none depId

/-- The dependency loop of `validate` over the entries of the dependency
map, threading the graph. Modelled from the spec: `forEachAsync` (utils,
not in the sources) awaits the callback on each element in order, so the
iteration is sequential and an exception aborts the remaining
iterations. -/
def validateDeps (env : ResolverEnv) (n : LockfileGraphNode) :
    LockfileGraph → List (String × String) →
      Except (ResolverError × LockfileGraph) LockfileGraph
  | g, [] => .ok g
  | g, (depId, constraint) :: rest =>
    match validateDep env n g depId constraint with
    | .ok g2 => validateDeps env n g2 rest
    | .error eg => .error eg

/-- Method `LockfileGraph.validate(node)` (source lines 78–126). -/
def LockfileGraph.validate (env : ResolverEnv) (g : LockfileGraph)
    (n : LockfileGraphNode) : Except (ResolverError × LockfileGraph) LockfileGraph :=
  validateDeps env n g n.dependencies

/-- The iteration of `validateAll` over a list of nodes, threading the
graph. -/
def validateAllAux (env : ResolverEnv) :
    LockfileGraph → List LockfileGraphNode →
      Except (ResolverError × LockfileGraph) LockfileGraph
  | g, [] => .ok g
  | g, n :: rest =>
    match LockfileGraph.validate env g n with
    | .ok g2 => validateAllAux env g2 rest
    | .error eg => .error eg

/-- Method `LockfileGraph.validateAll()` (source lines 128–130). Modelled from
the spec: `forEachAsync` visits, in order, the nodes that are in the
graph when the call starts (spec: invoke `validate` on every node
currently in the graph). -/
def LockfileGraph.validateAll (env : ResolverEnv) (g : LockfileGraph) :
    Except (ResolverError × LockfileGraph) LockfileGraph :=
  validateAllAux env g g

/-- One removal pass of `cleanup` (source lines 178–180): drop every node
dangling with respect to the current graph. -/
def cleanupStep (g : LockfileGraph) : LockfileGraph :=
  g.filter (fun n => !LockfileGraph.isNodeDangling g n)

/-- Fuelled iteration of removal passes until a pass removes nothing. -/
def cleanupIter : Nat → LockfileGraph → LockfileGraph
  | 0, g => g
  | fuel + 1, g =>
    if (cleanupStep g).length = g.length then g else cleanupIter fuel (cleanupStep g)

/-- Method `LockfileGraph.cleanup()` (source lines 178–180). Modelled from the
spec: `removeArrayElementWhere` (utils, not in the sources) removes the
nodes matching the predicate; per spec §4.4 the removal of dangling
nodes iterates to a fixed point so that nodes that became dangling
because of earlier removals are also removed. `g.length` passes always
suffice to reach the fixed point. -/
def LockfileGraph.cleanup (g : LockfileGraph) : LockfileGraph :=
  cleanupIter g.length g

/-- Function `lockfileDifference(oldLockfile, newLockfile)` (source lines
183–197). -/
def lockfileDifference (oldLockfile newLockfile : Lockfile) : LockfileDiff :=
  { uninstall := (oldLockfile.map Prod.fst).filter (fun id =>
      match newLockfile.lookup id, oldLockfile.lookup id with
      | none, _ => true
      | some nd, some od => od.version != nd.version
      | some _, none => false),
    install := ((newLockfile.map Prod.fst).filter (fun id =>
      match oldLockfile.lookup id, newLockfile.lookup id with
      | none, _ => true
      | some od, some nd => od.version != nd.version
      | some _, none => false)).map
        (fun id => (id, ((newLockfile.lookup id).map (fun d => d.version)).getD "")) }

/-! ### Helper lemmas about the embedded operations -/

/-- The graph state carried by a `validate` result, whether the call
returned normally or threw. -/
def resultGraph :
    Except (ResolverError × LockfileGraph) LockfileGraph → LockfileGraph
  | .ok g => g
  | .error (_, g) => g

/-- The graph state carried by a candidate-loop result. -/
def resultGraphFound :
    Except (ResolverError × LockfileGraph) (LockfileGraph × Bool) → LockfileGraph
  | .ok (g, _) => g
  | .error (_, g) => g

theorem validateDeps_append (env : ResolverEnv) (n : LockfileGraphNode) :
    ∀ (pre rest : List (String × String)) (g : LockfileGraph),
      validateDeps env n g (pre ++ rest) =
        match validateDeps env n g pre with
        | .ok g2 => validateDeps env n g2 rest
        | .error eg => .error eg := by
  intro pre
  induction pre with
  | nil => intro rest g; rfl
  | cons hd tl ih =>
    intro rest g
    obtain ⟨depId, c⟩ := hd
    cases h : validateDep env n g depId c with
    | ok g2 => simp [validateDeps, h, ih]
    | error eg => simp [validateDeps, h]

theorem validate_step (env : ResolverEnv) (n : LockfileGraphNode)
    (g g' : LockfileGraph) (pre post : List (String × String)) (depId c : String)
    (hdeps : n.dependencies = pre ++ (depId, c) :: post)
    (hpre : validateDeps env n g pre = .ok g') :
    LockfileGraph.validate env g n =
      match validateDep env n g' depId c with
      | .ok g2 => validateDeps env n g2 post
      | .error eg => .error eg := by
  unfold LockfileGraph.validate
  rw [hdeps, validateDeps_append, hpre]
  rfl

theorem getItemData_isInManifest {env : ResolverEnv} {id v : String}
    {nd : LockfileGraphNode} (h : getItemData env id v = .ok nd) :
    nd.isInManifest = false := by
  unfold getItemData at h
  by_cases h1 : (id == "SML") = true
  · rw [if_pos h1] at h
    cases henv : env.getSMLVersionInfo v <;> rw [henv] at h
    · exact absurd h (by simp)
    · simp only [Except.ok.injEq] at h
      subst h
      rfl
  · rw [if_neg h1] at h
    by_cases h2 : (id == "SatisfactoryGame") = true
    · rw [if_pos h2] at h
      exact absurd h (by simp)
    · rw [if_neg h2] at h
      cases henv : env.getCachedMod id v <;> rw [henv] at h
      · exact absurd h (by simp)
      · simp only [Except.ok.injEq] at h
        subst h
        rfl

theorem add_eq (g : LockfileGraph) (node : LockfileGraphNode) :
    LockfileGraph.add g node =
      .ok (if g.any (fun gn => gn.id == node.id) then g else g ++ [node]) := by
  unfold LockfileGraph.add
  split <;> simp_all

theorem mem_add {g g2 : LockfileGraph} {node M : LockfileGraphNode}
    (hM : M ∈ g) (h : LockfileGraph.add g node = .ok g2) : M ∈ g2 := by
  unfold LockfileGraph.add at h
  split at h <;> simp only [Except.ok.injEq] at h <;> subst h
  · exact hM
  · exact List.mem_append_left _ hM

theorem mem_remove {g : LockfileGraph} {M x : LockfileGraphNode}
    (hM : M ∈ g) (hne : M ≠ x) : M ∈ LockfileGraph.remove g x := by
  unfold LockfileGraph.remove
  exact (List.mem_erase_of_ne hne).mpr hM


theorem tryCandidates_mem (env : ResolverEnv) (depId : String)
    (M : LockfileGraphNode) (hman : M.isInManifest = true) :
    ∀ (cs : List String) (g : LockfileGraph), M ∈ g →
      M ∈ resultGraphFound (tryCandidates env depId g cs) := by
  intro cs
  induction cs with
  | nil => intro g hM; simpa [tryCandidates, resultGraphFound] using hM
  | cons v rest ih =>
    intro g hM
    by_cases hv : (v == "") = true
    · simpa [tryCandidates, hv, resultGraphFound] using hM
    · rw [tryCandidates, if_neg hv]
      cases hitem : getItemData env depId v with
      | error e => simpa [hitem, resultGraphFound] using hM
      | ok itemData =>
        simp only [hitem]
        cases hadd : LockfileGraph.add g itemData with
        | ok g2 =>
          simpa [hadd, resultGraphFound] using mem_add hM hadd
        | error e =>
          simp only [hadd]
          apply ih
          apply mem_remove hM
          intro heq
          have hf := getItemData_isInManifest hitem
          rw [heq, hf] at hman
          exact Bool.false_ne_true hman

theorem resolveDependency_mem (env : ResolverEnv) (n : LockfileGraphNode)
    (g : LockfileGraph) (prior : Option LockfileGraphNode) (depId : String)
    (M : LockfileGraphNode) (hman : M.isInManifest = true) (hM : M ∈ g) :
    M ∈ resultGraph (resolveDependency env n g prior depId) := by
  unfold resolveDependency
  have htc := tryCandidates_mem env depId M hman
    (candidateVersions env g depId).reverse g hM
  cases h : tryCandidates env depId g (candidateVersions env g depId).reverse with
  | error eg =>
    obtain ⟨e, g2⟩ := eg
    rw [h] at htc
    simp only [resultGraphFound] at htc
    simpa [h, resultGraph] using htc
  | ok p =>
    obtain ⟨g2, found⟩ := p
    rw [h] at htc
    have hmem : M ∈ g2 := by simpa [resultGraphFound] using htc
    cases found with
    | true => simpa [h, resultGraph] using hmem
    | false =>
      simp only [h]
      cases prior with
      | none => simpa [resultGraph] using hmem
      | some dn =>
        cases hadd : LockfileGraph.add g2 dn with
        | ok g3 => simpa [hadd, resultGraph] using mem_add hmem hadd
        | error e => simpa [hadd, resultGraph] using hmem

theorem validateDep_mem (env : ResolverEnv) (n : LockfileGraphNode)
    (g : LockfileGraph) (depId c : String)
    (M : LockfileGraphNode) (hman : M.isInManifest = true) (hM : M ∈ g) :
    M ∈ resultGraph (validateDep env n g depId c) := by
  unfold validateDep
  cases hfind : g.find? (fun gn => gn.id == depId) with
  | none =>
    simp only [hfind]
    exact resolveDependency_mem env n g none depId M hman hM
  | some dn =>
    simp only [hfind]
    by_cases hsat : (env.satisfies dn.version c) = true
    · simpa [hsat, resultGraph] using hM
    · rw [if_neg hsat]
      by_cases hdnman : dn.isInManifest = true
      · simpa [hdnman, resultGraph] using hM
      · rw [if_neg hdnman]
        apply resolveDependency_mem env n _ (some dn) depId M hman
        apply mem_remove hM
        intro heq
        rw [heq] at hman
        exact hdnman hman

theorem validateDeps_mem (env : ResolverEnv) (n : LockfileGraphNode)
    (M : LockfileGraphNode) (hman : M.isInManifest = true) :
    ∀ (deps : List (String × String)) (g : LockfileGraph), M ∈ g →
      M ∈ resultGraph (validateDeps env n g deps) := by
  intro deps
  induction deps with
  | nil => intro g hM; simpa [validateDeps, resultGraph] using hM
  | cons hd tl ih =>
    intro g hM
    obtain ⟨depId, c⟩ := hd
    have hstep := validateDep_mem env n g depId c M hman hM
    cases h : validateDep env n g depId c with
    | ok g2 =>
      rw [h] at hstep
      simp only [resultGraph] at hstep
      simpa [validateDeps, h] using ih g2 hstep
    | error eg =>
      rw [h] at hstep
      simpa [validateDeps, h, resultGraph] using hstep

theorem validate_mem (env : ResolverEnv) (g : LockfileGraph)
    (n : LockfileGraphNode) (M : LockfileGraphNode)
    (hman : M.isInManifest = true) (hM : M ∈ g) :
    M ∈ resultGraph (LockfileGraph.validate env g n) :=
  validateDeps_mem env n M hman n.dependencies g hM

theorem validateAllAux_mem (env : ResolverEnv) (M : LockfileGraphNode)
    (hman : M.isInManifest = true) :
    ∀ (ns : List LockfileGraphNode) (g : LockfileGraph), M ∈ g →
      M ∈ resultGraph (validateAllAux env g ns) := by
  intro ns
  induction ns with
  | nil => intro g hM; simpa [validateAllAux, resultGraph] using hM
  | cons hd tl ih =>
    intro g hM
    have hstep := validate_mem env g hd M hman hM
    cases h : LockfileGraph.validate env g hd with
    | ok g2 =>
      rw [h] at hstep
      simp only [resultGraph] at hstep
      simpa [validateAllAux, h] using ih g2 hstep
    | error eg =>
      rw [h] at hstep
      simpa [validateAllAux, h, resultGraph] using hstep

theorem filter_length_eq_self {α : Type} (p : α → Bool) :
    ∀ (l : List α), (l.filter p).length = l.length → l.filter p = l := by
  intro l
  induction l with
  | nil => intro; rfl
  | cons a t ih =>
    intro h
    by_cases hp : p a = true
    · simp only [List.filter_cons, hp, if_true, List.length_cons,
        Nat.add_right_cancel_iff] at h
      simp [List.filter_cons, hp, ih h]
    · exfalso
      have hle := List.length_filter_le p t
      simp only [List.filter_cons, hp] at h
      simp only [Bool.false_eq_true, if_false, List.length_cons] at h
      omega

theorem cleanupIter_fixed :
    ∀ (fuel : Nat) (g : LockfileGraph), g.length ≤ fuel →
      cleanupStep (cleanupIter fuel g) = cleanupIter fuel g := by
  intro fuel
  induction fuel with
  | zero =>
    intro g h
    have hnil : g = [] := List.length_eq_zero.mp (Nat.le_zero.mp h)
    subst hnil
    rfl
  | succ f ih =>
    intro g h
    rw [cleanupIter]
    by_cases hlen : (cleanupStep g).length = g.length
    · rw [if_pos hlen]
      exact filter_length_eq_self _ g hlen
    · rw [if_neg hlen]
      apply ih
      have hle : (cleanupStep g).length ≤ g.length := List.length_filter_le _ g
      omega

theorem lookup_isSome_iff {β : Type} (l : List (String × β)) (k : String) :
    (l.lookup k).isSome = true ↔ k ∈ l.map Prod.fst := by
  induction l with
  | nil => simp [List.lookup]
  | cons hd tl ih =>
    obtain ⟨k', v⟩ := hd
    by_cases h : k = k'
    · subst h; simp [List.lookup]
    · have hb : (k == k') = false := beq_eq_false_iff_ne.mpr h
      simp [List.lookup, hb, h, ih]

theorem lookup_pairmap (f : String → String) :
    ∀ (l : List String) (k v : String),
      ((l.map (fun id => (id, f id))).lookup k = some v) ↔ (k ∈ l ∧ v = f k) := by
  intro l
  induction l with
  | nil => simp [List.lookup]
  | cons a t ih =>
    intro k v
    by_cases h : k = a
    · subst h; simp [List.lookup, eq_comm]
    · have hb : (k == a) = false := beq_eq_false_iff_ne.mpr h
      simp [List.lookup, hb, h, ih]

theorem filter_eq_nil_of {α : Type} (p : α → Bool) (l : List α)
    (h : ∀ a ∈ l, p a = false) : l.filter p = [] := by
  induction l with
  | nil => rfl
  | cons a t ih =>
    have ha : p a = false := h a (List.mem_cons_self a t)
    simp only [List.filter_cons, ha, Bool.false_eq_true, if_false]
    exact ih (fun x hx => h x (List.mem_cons_of_mem a hx))

theorem setKey_lookup_self (k v : String) :
    ∀ (m : ItemVersionList), (setKey m k v).lookup k = some v := by
  intro m
  induction m with
  | nil => simp [setKey, List.lookup]
  | cons hd tl ih =>
    obtain ⟨k', v'⟩ := hd
    by_cases h : k' = k
    · subst h; simp [setKey, List.lookup]
    · have hb : (k' == k) = false := beq_eq_false_iff_ne.mpr h
      have hb2 : (k == k') = false := beq_eq_false_iff_ne.mpr (Ne.symm h)
      simp [setKey, hb, List.lookup, hb2, ih]

theorem setKey_lookup_other (k v k' : String) (hne : k' ≠ k) :
    ∀ (m : ItemVersionList), (setKey m k v).lookup k' = m.lookup k' := by
  intro m
  induction m with
  | nil => simp [setKey, List.lookup, beq_eq_false_iff_ne.mpr hne]
  | cons hd tl ih =>
    obtain ⟨k2, v2⟩ := hd
    by_cases h : k2 = k
    · subst h
      simp [setKey, List.lookup, beq_eq_false_iff_ne.mpr hne]
    · have hb : (k2 == k) = false := beq_eq_false_iff_ne.mpr h
      by_cases h2 : k' = k2
      · subst h2; simp [setKey, hb, List.lookup]
      · simp [setKey, hb, List.lookup, beq_eq_false_iff_ne.mpr h2, ih]

/-! ### Claims -/

/-- Claim C3: if the graph contains a node `dn` with id `depId`,
`dn.isInManifest` is true, and `dn.version` does not satisfy the
constraint `c` that `n` declares on `depId`, then `validate n` fails
with `DependencyManifestMismatch` and `dn` remains in the graph with
its version unchanged (the graph at throw time is exactly the graph
`g'` reached before this dependency was examined, and `dn ∈ g'`). The
dependency entry is reached after the earlier entries `pre` of `n`'s
dependency map were processed successfully. -/
theorem claim3_manifest_mismatch (env : ResolverEnv) (n : LockfileGraphNode)
    (g g' : LockfileGraph) (pre post : List (String × String))
    (depId c : String) (dn : LockfileGraphNode)
    (hdeps : n.dependencies = pre ++ (depId, c) :: post)
    (hpre : validateDeps env n g pre = .ok g')
    (hfind : g'.find? (fun gn => gn.id == depId) = some dn)
    (hman : dn.isInManifest = true)
    (hsat : env.satisfies dn.version c = false) :
    LockfileGraph.validate env g n =
      .error (.dependencyManifestMismatch
        ("Dependency " ++ depId ++ "@" ++ dn.version ++ " is NOT GOOD for "
          ++ n.id ++ "@" ++ n.version ++ " (requires " ++ c
          ++ "), and it is in the manifest"), g') ∧
    dn ∈ g' := by
  constructor
  · rw [validate_step env n g g' pre post depId c hdeps hpre]
    simp [validateDep, hfind, hsat, hman]
  · exact List.mem_of_find?_eq_some hfind

/-- Witness for C3 at a concrete input: the manifest dependency
`A@1.0.0` does not satisfy `root`'s constraint `^2`, so `validate`
throws `DependencyManifestMismatch` and leaves the graph intact. -/
def N3 : LockfileGraphNode :=
  { id := "root", version := "1.0.0", dependencies := [("A", "^2")],
    isInManifest := false }

def D3 : LockfileGraphNode :=
  { id := "A", version := "1.0.0", dependencies := [], isInManifest := true }

def E3 : ResolverEnv :=
  { satisfies := fun _ _ => false
    compare := fun _ _ => 0
    coerceValid := fun s => s
    getSMLVersionInfo := fun _ => none
    getCachedMod := fun _ _ => .error (.otherFailure "unavailable")
    findAllVersionsMatchingAll := fun _ _ => [] }

theorem claim3_witness :
    LockfileGraph.validate E3 [N3, D3] N3 =
      .error (.dependencyManifestMismatch
        ("Dependency " ++ "A" ++ "@" ++ D3.version ++ " is NOT GOOD for "
          ++ N3.id ++ "@" ++ N3.version ++ " (requires " ++ "^2"
          ++ "), and it is in the manifest"), [N3, D3]) ∧
    D3 ∈ [N3, D3] :=
  claim3_manifest_mismatch E3 N3 [N3, D3] [N3, D3] [] [] "A" "^2" D3
    (by decide) rfl (by decide) (by decide) rfl

/-- Claim C5: a node with `isInManifest = true` survives any `validate`
or `validateAll` call, successful or not, as the very same record (in
particular its version is unchanged). -/
theorem claim5_manifest_preservation (env : ResolverEnv) (g : LockfileGraph)
    (n M : LockfileGraphNode) (hM : M ∈ g) (hman : M.isInManifest = true) :
    M ∈ resultGraph (LockfileGraph.validate env g n) ∧
    M ∈ resultGraph (LockfileGraph.validateAll env g) :=
  ⟨validate_mem env g n M hman hM, validateAllAux_mem env M hman g g hM⟩

def M5 : LockfileGraphNode :=
  { id := "SatisfactoryGame", version := "109000", dependencies := [],
    isInManifest := true }

def E5 : ResolverEnv :=
  { satisfies := fun _ _ => false
    compare := fun _ _ => 0
    coerceValid := fun s => s
    getSMLVersionInfo := fun _ => none
    getCachedMod := fun _ _ => .error (.otherFailure "unavailable")
    findAllVersionsMatchingAll := fun _ _ => [] }

theorem claim5_witness :
    M5 ∈ resultGraph (LockfileGraph.validate E5 [M5] M5) ∧
    M5 ∈ resultGraph (LockfileGraph.validateAll E5 [M5]) :=
  claim5_manifest_preservation E5 [M5] M5 M5 (by decide) (by decide)

/-- Claim C8: after `cleanup`, every remaining node is in the manifest
or has at least one dependant, for every starting graph; the fixed-point
iteration also removes nodes that became dangling because of earlier
removals. (`removeArrayElementWhere` is not among the sources, so
`cleanup` is modelled from the spec as iterated removal to a fixed
point.) -/
theorem claim8_no_dangling (g : LockfileGraph) (n : LockfileGraphNode)
    (hn : n ∈ LockfileGraph.cleanup g) :
    n.isInManifest = true ∨
    LockfileGraph.getDependants (LockfileGraph.cleanup g) n ≠ [] := by
  have hfix : cleanupStep (LockfileGraph.cleanup g) = LockfileGraph.cleanup g :=
    cleanupIter_fixed g.length g (Nat.le_refl _)
  have hn2 : n ∈ cleanupStep (LockfileGraph.cleanup g) := by rw [hfix]; exact hn
  have hp := (List.mem_filter.mp hn2).2
  rw [Bool.not_eq_true'] at hp
  unfold LockfileGraph.isNodeDangling at hp
  by_cases hm : n.isInManifest = true
  · exact Or.inl hm
  · right
    intro hnil
    rw [hnil] at hp
    simp [hm] at hp

/-- Witness for C8 at a concrete input: a lone manifest node survives
`cleanup` and satisfies the disjunction. -/
def M8 : LockfileGraphNode :=
  { id := "game", version := "1.0.0", dependencies := [], isInManifest := true }

theorem claim8_witness :
    M8.isInManifest = true ∨
    LockfileGraph.getDependants (LockfileGraph.cleanup [M8]) M8 ≠ [] :=
  claim8_no_dangling [M8] M8 (by decide)

/-- Claim C10: `add` never fails — it always returns `.ok`, as a no-op
when a node with the same id exists and as an append otherwise, and
afterwards the graph always contains some node with the added node's
id. (The internal catch-and-rethrow branch of the source cannot fire:
the recursive validation in the `try` body is commented out and `push`
does not throw, which is why the embedded body produces no error.) -/
theorem claim10_add_total (g : LockfileGraph) (node : LockfileGraphNode) :
    ∃ g2, LockfileGraph.add g node = .ok g2 ∧
      (∃ m ∈ g2, m.id = node.id) ∧
      (g.any (fun gn => gn.id == node.id) = true → g2 = g) ∧
      (g.any (fun gn => gn.id == node.id) = false → g2 = g ++ [node]) := by
  by_cases h : g.any (fun gn => gn.id == node.id) = true
  · refine ⟨g, ?_, ?_, fun _ => rfl, fun hf => absurd h (by simp [hf])⟩
    · unfold LockfileGraph.add; rw [if_pos h]
    · obtain ⟨m, hm, hid⟩ := List.any_eq_true.mp h
      exact ⟨m, hm, by simpa using hid⟩
  · refine ⟨g ++ [node], ?_, ?_, fun ht => absurd ht h, fun _ => rfl⟩
    · unfold LockfileGraph.add; rw [if_neg h]
    · exact ⟨node, by simp, rfl⟩

def NW10 : LockfileGraphNode :=
  { id := "W", version := "1.0.0", dependencies := [], isInManifest := false }

theorem claim10_witness :
    ∃ g2, LockfileGraph.add ([] : LockfileGraph) NW10 = .ok g2 ∧
      g2 = [] ++ [NW10] := by
  obtain ⟨g2, h1, _, _, h4⟩ := claim10_add_total [] NW10
  exact ⟨g2, h1, h4 (by decide)⟩

/-- Claim C9: `lockfileDifference old new` puts into `uninstall` exactly
the ids present in `old` that are absent from `new` or changed version,
into `install` exactly the ids present in `new` that are absent from
`old` or changed version mapped to the new version (so a version change
appears in both lists), and `lockfileDifference L L` is empty for every
`L`. -/
theorem claim9_diff (o n : Lockfile) :
    (∀ id, id ∈ (lockfileDifference o n).uninstall ↔
      ∃ od, o.lookup id = some od ∧
        (n.lookup id = none ∨
         ∃ nd, n.lookup id = some nd ∧ od.version ≠ nd.version)) ∧
    (∀ id v, (lockfileDifference o n).install.lookup id = some v ↔
      ∃ nd, n.lookup id = some nd ∧ v = nd.version ∧
        (o.lookup id = none ∨
         ∃ od, o.lookup id = some od ∧ od.version ≠ nd.version)) ∧
    (∀ L : Lockfile, lockfileDifference L L = { install := [], uninstall := [] }) := by
  refine ⟨?_, ?_, ?_⟩
  · intro id
    simp only [lockfileDifference]
    rw [List.mem_filter]
    constructor
    · rintro ⟨hid, hp⟩
      have hsome : (o.lookup id).isSome = true := (lookup_isSome_iff o id).mpr hid
      cases ho : o.lookup id with
      | none => rw [ho] at hsome; simp at hsome
      | some od =>
        refine ⟨od, rfl, ?_⟩
        cases hn2 : n.lookup id with
        | none => exact Or.inl rfl
        | some nd =>
          right
          refine ⟨nd, rfl, ?_⟩
          simp only [hn2, ho] at hp
          exact bne_iff_ne.mp hp
    · rintro ⟨od, ho, hrest⟩
      have hid : id ∈ o.map Prod.fst :=
        (lookup_isSome_iff o id).mp (by rw [ho]; rfl)
      refine ⟨hid, ?_⟩
      cases hrest with
      | inl hn2 => simp only [hn2, ho]
      | inr h2 =>
        obtain ⟨nd, hn2, hne⟩ := h2
        simp only [hn2, ho]
        exact bne_iff_ne.mpr hne
  · intro id v
    simp only [lockfileDifference]
    rw [lookup_pairmap]
    rw [List.mem_filter]
    constructor
    · rintro ⟨⟨hid, hq⟩, hv⟩
      have hsome : (n.lookup id).isSome = true := (lookup_isSome_iff n id).mpr hid
      cases hn2 : n.lookup id with
      | none => rw [hn2] at hsome; simp at hsome
      | some nd =>
        refine ⟨nd, rfl, ?_, ?_⟩
        · rw [hv]; simp [hn2]
        · cases ho : o.lookup id with
          | none => exact Or.inl rfl
          | some od =>
            right
            refine ⟨od, rfl, ?_⟩
            simp only [ho, hn2] at hq
            exact bne_iff_ne.mp hq
    · rintro ⟨nd, hn2, hv, hrest⟩
      have hid : id ∈ n.map Prod.fst :=
        (lookup_isSome_iff n id).mp (by rw [hn2]; rfl)
      refine ⟨⟨hid, ?_⟩, ?_⟩
      · cases hrest with
        | inl ho => simp only [ho, hn2]
        | inr h2 =>
          obtain ⟨od, ho, hne⟩ := h2
          simp only [ho, hn2]
          exact bne_iff_ne.mpr hne
      · rw [hv]; simp [hn2]
  · intro L
    have hkey : ∀ id ∈ L.map Prod.fst, ∃ od, L.lookup id = some od := by
      intro id hid
      have hsome : (L.lookup id).isSome = true := (lookup_isSome_iff L id).mpr hid
      cases ho : L.lookup id with
      | none => rw [ho] at hsome; simp at hsome
      | some od => exact ⟨od, rfl⟩
    simp only [lockfileDifference, LockfileDiff.mk.injEq]
    constructor
    · rw [List.map_eq_nil_iff]
      apply filter_eq_nil_of
      intro id hid
      obtain ⟨od, ho⟩ := hkey id hid
      simp [ho]
    · apply filter_eq_nil_of
      intro id hid
      obtain ⟨od, ho⟩ := hkey id hid
      simp [ho]

/-- Witness for C9 at concrete inputs: for
`old = {A:1.0, B:1.0}` and `new = {A:1.0, B:2.0, C:1.0}`, the id `B`
(version change) lands in `uninstall`. -/
def O9 : Lockfile := [("A", ⟨"1.0", []⟩), ("B", ⟨"1.0", []⟩)]

def L9 : Lockfile := [("A", ⟨"1.0", []⟩), ("B", ⟨"2.0", []⟩), ("C", ⟨"1.0", []⟩)]

theorem claim9_witness : "B" ∈ (lockfileDifference O9 L9).uninstall :=
  ((claim9_diff O9 L9).1 "B").mpr
    ⟨⟨"1.0", []⟩, rfl, Or.inr ⟨⟨"2.0", []⟩, rfl, by decide⟩⟩

/-- Claim C6: when the catalog returns two candidates `v1 ≤ v2` for a
missing dependency, the list is sorted ascending and tried from the top
(newest first), so the resolver binds the dependency to the node fetched
for the higher version `v2` (which, like `v1`, is viable in isolation:
both `getItemData` calls succeed) and continues with the remaining
dependencies; the node for `v1` is never added. -/
theorem claim6_newest_first (env : ResolverEnv) (n : LockfileGraphNode)
    (g g' : LockfileGraph) (pre post : List (String × String))
    (depId c : String) (v1 v2 : String) (c1 c2 : LockfileGraphNode)
    (hdeps : n.dependencies = pre ++ (depId, c) :: post)
    (hpre : validateDeps env n g pre = .ok g')
    (hfind : g'.find? (fun gn => gn.id == depId) = none)
    (hlist : env.findAllVersionsMatchingAll depId (collectConstraints g' depId)
      = [v1, v2])
    (hcmp : env.compare v1 v2 ≤ 0)
    (hv2 : v2 ≠ "")
    (_hc1 : getItemData env depId v1 = .ok c1)
    (hc2 : getItemData env depId v2 = .ok c2)
    (hnew : g'.any (fun gn => gn.id == c2.id) = false) :
    LockfileGraph.validate env g n = validateDeps env n (g' ++ [c2]) post := by
  have hdec : decide (env.compare v1 v2 ≤ 0) = true := decide_eq_true hcmp
  have hcv : candidateVersions env g' depId = [v1, v2] := by
    unfold candidateVersions sortAsc
    rw [hlist]
    simp [insertSorted, hdec]
  have hrev : (candidateVersions env g' depId).reverse = [v2, v1] := by
    rw [hcv]; rfl
  have htc : tryCandidates env depId g' (candidateVersions env g' depId).reverse
      = .ok (g' ++ [c2], true) := by
    rw [hrev, tryCandidates, if_neg (by simp [hv2])]
    simp only [hc2, LockfileGraph.add, hnew]
    simp
  rw [validate_step env n g g' pre post depId c hdeps hpre]
  simp only [validateDep, hfind]
  unfold resolveDependency
  rw [htc]

def C61 : LockfileGraphNode :=
  { id := "A", version := "1.0.0", dependencies := [], isInManifest := false }

def C62 : LockfileGraphNode :=
  { id := "A", version := "2.0.0", dependencies := [], isInManifest := false }

def N6 : LockfileGraphNode :=
  { id := "root", version := "1.0.0", dependencies := [("A", "^1")],
    isInManifest := true }

def E6 : ResolverEnv :=
  { satisfies := fun _ _ => false
    compare := fun a b => if a == b then 0 else if a == "1.0.0" then -1 else 1
    coerceValid := fun s => s
    getSMLVersionInfo := fun _ => none
    getCachedMod := fun id v =>
      if id == "A" && (v == "1.0.0" || v == "2.0.0") then
        .ok { mod_id := "A", version := v, dependencies := some [],
              sml_version := none }
      else .error (.modNotFound (id ++ "@" ++ v ++ " not found"))
    findAllVersionsMatchingAll := fun id _ =>
      if id == "A" then ["1.0.0", "2.0.0"] else [] }

theorem claim6_witness :
    LockfileGraph.validate E6 [N6] N6 = validateDeps E6 N6 ([N6] ++ [C62]) [] :=
  claim6_newest_first E6 N6 [N6] [N6] [] [] "A" "^1" "1.0.0" "2.0.0" C61 C62
    (by decide) rfl (by decide) (by decide) (by decide) (by decide)
    rfl rfl (by decide)

/-- Environment for the C1 counterexample: catalog offers `A@1.0.0` as
the only candidate for `A`; `A@1.0.0` declares a dependency on `B`, for
which the catalog has no versions at all; `satisfies` never holds. -/
def E1 : ResolverEnv :=
  { satisfies := fun _ _ => false
    compare := fun _ _ => 0
    coerceValid := fun s => s
    getSMLVersionInfo := fun _ => none
    getCachedMod := fun id v =>
      if id == "A" && v == "1.0.0" then
        .ok { mod_id := "A", version := "1.0.0",
              dependencies := some [("B", "^1")], sml_version := none }
      else .error (.modNotFound (id ++ "@" ++ v ++ " not found"))
    findAllVersionsMatchingAll := fun id _ =>
      if id == "A" then ["1.0.0"] else [] }

def N1 : LockfileGraphNode :=
  { id := "root", version := "1.0.0", dependencies := [("A", "^1")],
    isInManifest := true }

def childA : LockfileGraphNode :=
  { id := "A", version := "1.0.0", dependencies := [("B", "^1")],
    isInManifest := false }

/-- Counterexample to claim C1 as stated: validating `root` fetches the
candidate child `A@1.0.0` and `validate` returns successfully with the
child in the graph, even though the child's own dependency `B` has no
node in the resulting graph and no catalog candidates whatsoever — so
the child was *not* recursively validated (a recursive validation would
have failed with `UnsolvableDependency` for `B`, removed the child, and,
with no candidate left, made `validate root` fail). -/
theorem claim1_counterexample :
    LockfileGraph.validate E1 [N1] N1 = .ok [N1, childA] ∧
    childA.dependencies = [("B", "^1")] ∧
    E1.findAllVersionsMatchingAll "B" (collectConstraints [N1, childA] "B") = [] ∧
    (∀ m ∈ [N1, childA], m.id ≠ "B") := by
  refine ⟨rfl, rfl, rfl, ?_⟩
  decide

/-- Amended claim C1: during the candidate loop, once `getItemData`
succeeds for the popped candidate `v`, the resolver adds the child to
the graph and immediately accepts the candidate — the child is *not*
recursively validated (the recursive `validate` call inside `add` is
commented out in the source), validation simply continues with the
remaining dependency entries of `n`, and the remove-and-try-next branch
is unreachable. -/
theorem claim1_amended (env : ResolverEnv) (n : LockfileGraphNode)
    (g g' : LockfileGraph) (pre post : List (String × String))
    (depId c : String) (v : String) (rest : List String)
    (child : LockfileGraphNode)
    (hdeps : n.dependencies = pre ++ (depId, c) :: post)
    (hpre : validateDeps env n g pre = .ok g')
    (hfind : g'.find? (fun gn => gn.id == depId) = none)
    (hcands : (candidateVersions env g' depId).reverse = v :: rest)
    (hv : v ≠ "")
    (hitem : getItemData env depId v = .ok child)
    (hnew : g'.any (fun gn => gn.id == child.id) = false) :
    LockfileGraph.validate env g n = validateDeps env n (g' ++ [child]) post := by
  have htc : tryCandidates env depId g' (candidateVersions env g' depId).reverse
      = .ok (g' ++ [child], true) := by
    rw [hcands, tryCandidates, if_neg (by simp [hv])]
    simp only [hitem, LockfileGraph.add, hnew]
    simp
  rw [validate_step env n g g' pre post depId c hdeps hpre]
  simp only [validateDep, hfind]
  unfold resolveDependency
  rw [htc]

theorem claim1_amended_witness :
    LockfileGraph.validate E1 [N1] N1 = validateDeps E1 N1 ([N1] ++ [childA]) [] :=
  claim1_amended E1 N1 [N1] [N1] [] [] "A" "^1" "1.0.0" [] childA
    (by decide) rfl (by decide) rfl (by decide) rfl (by decide)

/-- Environment for the C2 counterexample: two candidates for `A`;
`getItemData` fails for the newer one (`2.0.0` is not in the mod cache
or download fails) and would succeed for the older one. -/
def E2 : ResolverEnv :=
  { satisfies := fun _ _ => false
    compare := fun a b => if a == b then 0 else if a == "1.0.0" then -1 else 1
    coerceValid := fun s => s
    getSMLVersionInfo := fun _ => none
    getCachedMod := fun id v =>
      if id == "A" && v == "1.0.0" then
        .ok { mod_id := "A", version := "1.0.0", dependencies := some [],
              sml_version := none }
      else .error (.modNotFound (id ++ "@" ++ v ++ " not found"))
    findAllVersionsMatchingAll := fun id _ =>
      if id == "A" then ["1.0.0", "2.0.0"] else [] }

def N2 : LockfileGraphNode :=
  { id := "root", version := "1.0.0", dependencies := [("A", "^1")],
    isInManifest := true }

/-- Counterexample to claim C2 as stated: the `ModNotFound` failure of
`getItemData` for the first-tried candidate `A@2.0.0` is *not* caught —
it propagates out of `validate` — even though the next candidate
`A@1.0.0` was available and its `getItemData` succeeds. Under the claim
the resolver would have skipped to `A@1.0.0` and returned successfully. -/
theorem claim2_counterexample :
    LockfileGraph.validate E2 [N2] N2 =
      .error (.modNotFound ("A" ++ "@" ++ "2.0.0" ++ " not found"), [N2]) ∧
    E2.findAllVersionsMatchingAll "A" (collectConstraints [N2] "A")
      = ["1.0.0", "2.0.0"] ∧
    E2.getCachedMod "A" "1.0.0" =
      .ok { mod_id := "A", version := "1.0.0", dependencies := some [],
            sml_version := none } :=
  ⟨rfl, rfl, rfl⟩

/-- Amended claim C2: in the candidate loop `getItemData` is invoked
*outside* the `try` block, so when it fails for the popped candidate
`v` its error — of any kind — propagates immediately out of `validate`
(the remaining candidates are not tried and the graph is left as it
was at that point). Only a failure of `add` would be caught as
candidate-rejection, and `add` never fails. -/
theorem claim2_amended (env : ResolverEnv) (n : LockfileGraphNode)
    (g g' : LockfileGraph) (pre post : List (String × String))
    (depId c : String) (v : String) (rest : List String) (e : ResolverError)
    (hdeps : n.dependencies = pre ++ (depId, c) :: post)
    (hpre : validateDeps env n g pre = .ok g')
    (hfind : g'.find? (fun gn => gn.id == depId) = none)
    (hcands : (candidateVersions env g' depId).reverse = v :: rest)
    (hv : v ≠ "")
    (hitem : getItemData env depId v = .error e) :
    LockfileGraph.validate env g n = .error (e, g') := by
  have htc : tryCandidates env depId g' (candidateVersions env g' depId).reverse
      = .error (e, g') := by
    rw [hcands, tryCandidates, if_neg (by simp [hv])]
    simp [hitem]
  rw [validate_step env n g g' pre post depId c hdeps hpre]
  simp only [validateDep, hfind]
  unfold resolveDependency
  rw [htc]

theorem claim2_amended_witness :
    LockfileGraph.validate E2 [N2] N2 =
      .error (.modNotFound ("A@2.0.0 not found"), [N2]) :=
  claim2_amended E2 N2 [N2] [N2] [] [] "A" "^1" "2.0.0" ["1.0.0"]
    (.modNotFound "A@2.0.0 not found")
    (by decide) rfl (by decide) rfl (by decide) rfl

/-- Environment for the C4 counterexample: one catalog candidate
`A@2.0.0` whose `getItemData` fails; `satisfies` never holds. -/
def E4 : ResolverEnv :=
  { satisfies := fun _ _ => false
    compare := fun _ _ => 0
    coerceValid := fun s => s
    getSMLVersionInfo := fun _ => none
    getCachedMod := fun id v => .error (.modNotFound (id ++ "@" ++ v ++ " not found"))
    findAllVersionsMatchingAll := fun id _ =>
      if id == "A" then ["2.0.0"] else [] }

def N4 : LockfileGraphNode :=
  { id := "root", version := "1.0.0", dependencies := [("A", "^2")],
    isInManifest := true }

def D4 : LockfileGraphNode :=
  { id := "A", version := "1.0.0", dependencies := [], isInManifest := false }

/-- Counterexample to claim C4 as stated: the existing non-manifest
node `A@1.0.0` is removed because it does not satisfy `^2`, the sole
catalog candidate `A@2.0.0` fails in `getItemData`, so no candidate
succeeds — yet `validate` fails with the propagated `ModNotFound`, not
with `UnsolvableDependency`, and the prior node `D4` is *not* re-added
(the graph at throw time is `[N4]`, which does not contain `D4`). -/
theorem claim4_counterexample :
    LockfileGraph.validate E4 [N4, D4] N4 =
      .error (.modNotFound ("A" ++ "@" ++ "2.0.0" ++ " not found"), [N4]) ∧
    D4.isInManifest = false ∧
    E4.satisfies D4.version "^2" = false ∧
    E4.findAllVersionsMatchingAll "A" (collectConstraints [N4] "A") = ["2.0.0"] ∧
    (∀ m ∈ [N4], m ≠ D4) := by
  refine ⟨rfl, rfl, rfl, rfl, ?_⟩
  decide

/-- Amended claim C4: when the removed prior node's replacement search
ends with the candidate loop unsuccessful — which, since `getItemData`
failures propagate and `add` never fails, happens exactly when the
catalog returns no candidate versions (or the popped candidate is the
empty string) — the resolver re-adds the prior node `dn` and fails with
`UnsolvableDependency`, so the graph at throw time contains `dn`
again. If instead `getItemData` fails for a candidate, that error
propagates and `dn` is not restored. -/
theorem claim4_amended (env : ResolverEnv) (n : LockfileGraphNode)
    (g g' : LockfileGraph) (pre post : List (String × String))
    (depId c : String) (dn : LockfileGraphNode)
    (hdeps : n.dependencies = pre ++ (depId, c) :: post)
    (hpre : validateDeps env n g pre = .ok g')
    (hfind : g'.find? (fun gn => gn.id == depId) = some dn)
    (hman : dn.isInManifest = false)
    (hsat : env.satisfies dn.version c = false)
    (hcands : candidateVersions env (LockfileGraph.remove g' dn) depId = [])
    (hnodup : (LockfileGraph.remove g' dn).any (fun gn => gn.id == dn.id) = false) :
    LockfileGraph.validate env g n =
      .error (.unsolvableDependency
        ("No version found for dependency " ++ depId ++ " of " ++ n.id),
        LockfileGraph.remove g' dn ++ [dn]) ∧
    dn ∈ LockfileGraph.remove g' dn ++ [dn] := by
  constructor
  · rw [validate_step env n g g' pre post depId c hdeps hpre]
    simp only [validateDep, hfind]
    rw [if_neg (by simp [hsat]), if_neg (by simp [hman])]
    unfold resolveDependency
    have htc : tryCandidates env depId (LockfileGraph.remove g' dn)
        (candidateVersions env (LockfileGraph.remove g' dn) depId).reverse
        = .ok (LockfileGraph.remove g' dn, false) := by
      rw [hcands]; rfl
    rw [htc]
    simp only [LockfileGraph.add, hnodup]
    simp
  · exact List.mem_append_right _ (by simp)

def E4W : ResolverEnv :=
  { satisfies := fun _ _ => false
    compare := fun _ _ => 0
    coerceValid := fun s => s
    getSMLVersionInfo := fun _ => none
    getCachedMod := fun id v => .error (.modNotFound (id ++ "@" ++ v ++ " not found"))
    findAllVersionsMatchingAll := fun _ _ => [] }

def N4W : LockfileGraphNode :=
  { id := "root", version := "1.0.0", dependencies := [("A", "^2")],
    isInManifest := true }

def D4W : LockfileGraphNode :=
  { id := "A", version := "1.0.0", dependencies := [], isInManifest := false }

theorem claim4_amended_witness :
    LockfileGraph.validate E4W [N4W, D4W] N4W =
      .error (.unsolvableDependency
        ("No version found for dependency " ++ "A" ++ " of " ++ N4W.id),
        LockfileGraph.remove [N4W, D4W] D4W ++ [D4W]) ∧
    D4W ∈ LockfileGraph.remove [N4W, D4W] D4W ++ [D4W] :=
  claim4_amended E4W N4W [N4W, D4W] [N4W, D4W] [] [] "A" "^2" D4W
    (by decide) rfl (by decide) rfl rfl (by decide) (by decide)

/-- Environment for the C7 counterexample: the cached metadata of
`modX@1.0.0` carries an `sml_version` field whose value is the empty
string (falsy in JS). -/
def E7 : ResolverEnv :=
  { satisfies := fun _ _ => true
    compare := fun _ _ => 0
    coerceValid := fun s => s
    getSMLVersionInfo := fun _ => none
    getCachedMod := fun id v =>
      if id == "modX" && v == "1.0.0" then
        .ok { mod_id := "modX", version := "1.0.0", dependencies := some [],
              sml_version := some "" }
      else .error (.modNotFound (id ++ "@" ++ v ++ " not found"))
    findAllVersionsMatchingAll := fun _ _ => [] }

/-- Counterexample to claim C7 as stated: the metadata of
`modX@1.0.0` *carries* a loader-version field (`sml_version = some ""`),
yet `getItemData` returns a node whose dependency map has no `"SML"`
entry, because the source tests JS truthiness (`if (modData.sml_version)`)
and the empty string is falsy. -/
theorem claim7_counterexample :
    E7.getCachedMod "modX" "1.0.0" =
      .ok { mod_id := "modX", version := "1.0.0", dependencies := some [],
            sml_version := some "" } ∧
    getItemData E7 "modX" "1.0.0" =
      .ok { id := "modX", version := "1.0.0", dependencies := [],
            isInManifest := false } ∧
    (([] : ItemVersionList).lookup "SML") = none :=
  ⟨rfl, rfl, rfl⟩

/-- Amended claim C7: `getItemData` behaves per the three branches of
the source — for `"SML"` it synthesizes the game-version dependency or
fails with `ModNotFound` when the loader release is unknown; for
`"SatisfactoryGame"` it always fails with `InvalidLockfileOperation`;
for every other id it adapts the cached metadata, with a missing
`dependencies` field read as the empty map, and an `"SML"` entry with
constraint `">="` ++ the coerced loader version merged in exactly when
the metadata carries a *non-empty* loader-version field (an absent or
empty-string `sml_version` leaves the dependency map unchanged). -/
theorem claim7_amended (env : ResolverEnv) (id version : String) :
    (id = "SML" →
      (env.getSMLVersionInfo version = none →
        getItemData env id version =
          .error (.modNotFound ("SML@" ++ version ++ " not found"))) ∧
      (∀ info, env.getSMLVersionInfo version = some info →
        getItemData env id version =
          .ok { id := "SML", version := version,
                dependencies := [("SatisfactoryGame",
                  ">=" ++ env.coerceValid (toString info.satisfactory_version))],
                isInManifest := false })) ∧
    (id = "SatisfactoryGame" →
      ∃ msg, getItemData env id version = .error (.invalidLockfileOperation msg)) ∧
    (id ≠ "SML" → id ≠ "SatisfactoryGame" →
      (∀ e, env.getCachedMod id version = .error e →
        getItemData env id version = .error e) ∧
      (∀ md, env.getCachedMod id version = .ok md →
        ∃ nd, getItemData env id version = .ok nd ∧
          nd.id = md.mod_id ∧ nd.version = md.version ∧
          nd.isInManifest = false ∧
          (∀ s, md.sml_version = some s → s ≠ "" →
            nd.dependencies.lookup "SML" = some (">=" ++ env.coerceValid s) ∧
            ∀ k, k ≠ "SML" →
              nd.dependencies.lookup k = (md.dependencies.getD []).lookup k) ∧
          ((md.sml_version = none ∨ md.sml_version = some "") →
            nd.dependencies = md.dependencies.getD []))) := by
  refine ⟨?_, ?_, ?_⟩
  · intro h
    subst h
    constructor
    · intro hnone
      unfold getItemData
      simp [hnone]
    · intro info hinfo
      unfold getItemData
      simp [hinfo]
  · intro h
    subst h
    exact ⟨_, rfl⟩
  · intro h1 h2
    have hb1 : (id == "SML") = false := beq_eq_false_iff_ne.mpr h1
    have hb2 : (id == "SatisfactoryGame") = false := beq_eq_false_iff_ne.mpr h2
    constructor
    · intro e he
      unfold getItemData
      simp [hb1, hb2, he]
    · intro md hmd
      cases hsml : md.sml_version with
      | none =>
        refine ⟨{ id := md.mod_id, version := md.version,
                  dependencies := md.dependencies.getD [],
                  isInManifest := false }, ?_, rfl, rfl, rfl, ?_, ?_⟩
        · unfold getItemData
          simp [hb1, hb2, hmd, hsml]
        · intro s hs
          exact absurd hs (by simp)
        · intro _
          rfl
      | some s0 =>
        by_cases hs0 : s0 = ""
        · subst hs0
          refine ⟨{ id := md.mod_id, version := md.version,
                    dependencies := md.dependencies.getD [],
                    isInManifest := false }, ?_, rfl, rfl, rfl, ?_, ?_⟩
          · unfold getItemData
            simp [hb1, hb2, hmd, hsml]
          · intro s hs hne
            injection hs with hs
            exact absurd hs.symm hne
          · intro _
            rfl
        · refine ⟨{ id := md.mod_id, version := md.version,
                    dependencies := setKey (md.dependencies.getD []) "SML"
                      (">=" ++ env.coerceValid s0),
                    isInManifest := false }, ?_, rfl, rfl, rfl, ?_, ?_⟩
          · unfold getItemData
            simp [hb1, hb2, hmd, hsml, beq_eq_false_iff_ne.mpr hs0]
          · intro s hs hne
            injection hs with hs
            subst hs
            exact ⟨setKey_lookup_self _ _ _,
              fun k hk => setKey_lookup_other _ _ k hk _⟩
          · intro hcontra
            cases hcontra with
            | inl hc => exact absurd hc (by simp)
            | inr hc =>
              injection hc with hc
              exact absurd hc hs0

def MD7 : ModMeta :=
  { mod_id := "modY", version := "1.0.0",
    dependencies := some [("B", "^1")], sml_version := some "2.0.0" }

def EW7 : ResolverEnv :=
  { satisfies := fun _ _ => true
    compare := fun _ _ => 0
    coerceValid := fun s => s
    getSMLVersionInfo := fun _ => none
    getCachedMod := fun id v =>
      if id == "modY" && v == "1.0.0" then .ok MD7
      else .error (.modNotFound (id ++ "@" ++ v ++ " not found"))
    findAllVersionsMatchingAll := fun _ _ => [] }

theorem claim7_amended_witness :
    ∃ nd, getItemData EW7 "modY" "1.0.0" = .ok nd ∧
      nd.id = MD7.mod_id ∧ nd.version = MD7.version ∧
      nd.isInManifest = false ∧
      (∀ s, MD7.sml_version = some s → s ≠ "" →
        nd.dependencies.lookup "SML" = some (">=" ++ EW7.coerceValid s) ∧
        ∀ k, k ≠ "SML" →
          nd.dependencies.lookup k = (MD7.dependencies.getD []).lookup k) ∧
      ((MD7.sml_version = none ∨ MD7.sml_version = some "") →
        nd.dependencies = MD7.dependencies.getD []) :=
  ((claim7_amended EW7 "modY" "1.0.0").2.2 (by decide) (by decide)).2 MD7 rfl
